import Mathlib

/-
Verification of the protovm core (src/protovm/vm.cc) and its trace-processor
collaborator (src/trace_processor/importers/proto/protovm_incremental_tracing.h/.cc).

Byte strings are modelled as lists of naturals; protobuf wire data is parsed with
an explicit fuel argument so every definition is executable and kernel-reducible.
-/

namespace Protovm

/-- Byte strings (std::string / protozero::ConstBytes) as lists of byte values. -/
abbrev Bytes := List Nat

/-- Auxiliary varint encoder with fuel; fuel at least the value being encoded is
always sufficient, since the value shrinks by a factor of 128 each step. -/
def encodeVarintAux : Nat → Nat → Bytes
  | _, 0 => [0]
  | 0, n => [n % 128]
  | fuel + 1, n => if n < 128 then [n] else (n % 128 + 128) :: encodeVarintAux fuel (n / 128)

/-- Protobuf base-128 varint encoding of a natural number. -/
def encodeVarint (n : Nat) : Bytes :=
  encodeVarintAux n n

/-- Protobuf base-128 varint decoder: returns the decoded value and the remaining
bytes, or none on truncated input. -/
def decodeVarint : Bytes → Option (Nat × Bytes)
  | [] => none
  | b :: rest =>
    if b < 128 then some (b, rest)
    else
      match decodeVarint rest with
      | none => none
      | some (v, rest2) => some (b % 128 + 128 * v, rest2)

/-- One parsed wire-format field: field number, wire type, payload bytes.
For wire type 0 (varint) the payload is the canonical re-encoding of the value;
for wire type 2 (length-delimited) it is the raw contents. -/
abbrev WireField := Nat × Nat × Bytes

/-- Serialization of a single wire field back to bytes: the tag varint, then
for length-delimited fields the length prefix and contents, else the payload. -/
def serializeField (f : WireField) : Bytes :=
  encodeVarint (f.1 * 8 + f.2.1) ++
    (if f.2.1 = 2 then encodeVarint f.2.2.length ++ f.2.2 else f.2.2)

/-- Serialization of a field list: concatenation of the fields in order. -/
def serializeFieldList (fs : List WireField) : Bytes :=
  fs.foldr (fun f acc => serializeField f ++ acc) []

/-- Fueled top-level wire parser: splits a byte string into its fields, failing
on truncated varints, short length-delimited payloads or unsupported wire types.
Each iteration consumes at least one byte, so fuel equal to the input length is
sufficient. -/
def parseFieldsAux : Nat → Bytes → Option (List WireField)
  | _, [] => some []
  | 0, _ => none
  | fuel + 1, l =>
    match decodeVarint l with
    | none => none
    | some (tag, rest) =>
      let f := tag / 8
      let wt := tag % 8
      if wt = 0 then
        match decodeVarint rest with
        | none => none
        | some (v, rest2) =>
          match parseFieldsAux fuel rest2 with
          | none => none
          | some fs => some ((f, 0, encodeVarint v) :: fs)
      else if wt = 2 then
        match decodeVarint rest with
        | none => none
        | some (len, rest2) =>
          if len ≤ rest2.length then
            match parseFieldsAux fuel (rest2.drop len) with
            | none => none
            | some fs => some ((f, 2, rest2.take len) :: fs)
          else none
      else none

/-- Parse a byte string into its top-level wire fields (RoCursor / PatchCursor
view of one patch), or none when the bytes are malformed. -/
def parseFields (b : Bytes) : Option (List WireField) :=
  parseFieldsAux b.length b

/-- The incremental-state tree: an association list from field number to
(wire type, payload), kept sorted by field number with unique keys so that
serialization is deterministic. -/
abbrev Tree := List (Nat × Nat × Bytes)

/-- Sorted-insert-or-overwrite of one field into the tree. -/
def treeSet : Tree → Nat → Nat → Bytes → Tree
  | [], f, wt, pl => [(f, wt, pl)]
  | e :: rest, f, wt, pl =>
    if f < e.1 then (f, wt, pl) :: e :: rest
    else if f = e.1 then (f, wt, pl) :: rest
    else e :: treeSet rest f wt pl

/-- Deterministic serialization of the tree (RwProto SerializeAsString):
fields in ascending field-number order. -/
def treeSerialize (t : Tree) : Bytes :=
  serializeFieldList t

/-- Size accounting of the tree against the memory budget: the byte length of
its serialization. -/
def treeSize (t : Tree) : Nat :=
  (treeSerialize t).length

/-- Error results of the VM. `abort` is StatusOr Abort, the unsupported-operation
failure for a mutating call on a frozen-snapshot Vm; `malformedInput` covers
unparsable patch bytes and wire types disagreeing with the Program; and
`resourceExceeded` is a mutation past the memory budget. -/
inductive VmError where
  | abort : VmError
  | malformedInput : VmError
  | resourceExceeded : VmError
  deriving DecidableEq, Repr

/-- Modelled from the spec: the concrete instruction encoding of Program is an
open question (spec section 9), observable only as field-address-keyed merge
instructions; modelled as consecutive byte pairs (field number, expected wire
type). -/
def decodeProgram : Bytes → List (Nat × Nat)
  | f :: wt :: rest => (f, wt) :: decodeProgram rest
  | _ => []

/-- Modelled from the spec: the Executor walks the Program instructions in
lockstep with the fields of the patch — an addressed field whose wire type
matches is merged (overwrite) into the tree, a mismatching wire type is a
malformed-input failure, and an unaddressed field is ignored. -/
def applyFields (prog : List (Nat × Nat)) : List WireField → Tree → Except VmError Tree
  | [], t => Except.ok t
  | (f, wt, pl) :: rest, t =>
    match prog.find? (fun i => i.1 == f) with
    | none => applyFields prog rest t
    | some i =>
      if wt = i.2 then applyFields prog rest (treeSet t f wt pl)
      else Except.error VmError.malformedInput

/-- Modelled from the spec: Executor Run (the `parser.Run(src, dst)` call of
Vm::ApplyPatch; the Executor and RwProto sources are not under src/). Parses
the patch, merges the addressed fields per Program, and commits the new tree
only when the whole patch applied and the result fits the memory budget;
on any failure the previous tree is returned unchanged inside the error path
(spec section 4.1: pre-validation / commit only on full success). -/
def vmRun (prog : Bytes) (patch : Bytes) (t : Tree) (limit : Nat) : Except VmError Tree :=
  match parseFields patch with
  | none => Except.error VmError.malformedInput
  | some fs =>
    match applyFields (decodeProgram prog) fs t with
    | Except.error e => Except.error e
    | Except.ok t2 =>
      if treeSize t2 ≤ limit then Except.ok t2 else Except.error VmError.resourceExceeded

/-- The mutable-builder variant (vm.h ReadWriteState): a copy of the Program
bytes, the live incremental-state tree, and the memory budget. -/
structure ReadWriteState where
  program : Bytes
  tree : Tree
  memoryLimit : Nat
  deriving DecidableEq, Repr

/-- The frozen-snapshot variant (vm.h ReadOnlyState): the stored serialized
incremental state. -/
structure ReadOnlyState where
  serialized_incremental_state : Bytes
  deriving DecidableEq, Repr

/-- The std::variant state of a Vm: exactly one of the two variants is active. -/
inductive VmState where
  | rw : ReadWriteState → VmState
  | ro : ReadOnlyState → VmState
  deriving DecidableEq, Repr

/-- The Vm (vm.cc): the owned Program bytes and the active variant. -/
structure Vm where
  owned_program : Bytes
  state_ : VmState
  deriving DecidableEq, Repr

/-- Vm::Vm(std::string program, size_t memory_limit_bytes): the mutable-builder
constructor; owned_program takes the Program bytes and the ReadWriteState gets
a copy of them, an empty tree and the budget. -/
def Vm.mkMutable (program : Bytes) (memory_limit_bytes : Nat) : Vm :=
  Vm.mk program (VmState.rw (ReadWriteState.mk program [] memory_limit_bytes))

/-- Vm::Vm(std::string incremental_state): the frozen-snapshot constructor;
owned_program is left default-initialized (empty). -/
def Vm.mkReadOnly (incremental_state : Bytes) : Vm :=
  Vm.mk [] (VmState.ro (ReadOnlyState.mk incremental_state))

/-- Whether the frozen-snapshot variant is active. -/
def Vm.isFrozen : Vm → Bool
  | Vm.mk _ (VmState.ro _) => true
  | Vm.mk _ (VmState.rw _) => false

/-- Vm::ApplyPatch: on the frozen-snapshot variant returns StatusOr Abort
without touching any state; on the mutable-builder variant runs the Executor
over the patch bytes and the tree root and returns its result unchanged,
together with the Vm after the call. -/
def Vm.ApplyPatch : Vm → Bytes → Except VmError Unit × Vm
  | Vm.mk op (VmState.ro s), _ => (Except.error VmError.abort, Vm.mk op (VmState.ro s))
  | Vm.mk op (VmState.rw s), p =>
    match vmRun s.program p s.tree s.memoryLimit with
    | Except.error e => (Except.error e, Vm.mk op (VmState.rw s))
    | Except.ok t2 =>
      (Except.ok (), Vm.mk op (VmState.rw (ReadWriteState.mk s.program t2 s.memoryLimit)))

/-- Vm::SerializeIncrementalState (a const method): the stored snapshot verbatim
on the frozen-snapshot variant, the live tree's serialization on the
mutable-builder variant. -/
def Vm.SerializeIncrementalState : Vm → Bytes
  | Vm.mk _ (VmState.ro s) => s.serialized_incremental_state
  | Vm.mk _ (VmState.rw s) => treeSerialize s.tree

/-- Vm::SerializeProgram (a const method): returns owned_program unconditionally,
with no check of the active variant. -/
def Vm.SerializeProgram (vm : Vm) : Bytes :=
  vm.owned_program

/-- Vm::CloneReadOnly (a const method): serializes the incremental state and
constructs a brand-new frozen-snapshot Vm holding that snapshot. -/
def Vm.CloneReadOnly (vm : Vm) : Vm :=
  Vm.mkReadOnly vm.SerializeIncrementalState

/-- Applying a sequence of patches in order, keeping the Vm after each call and
discarding the per-call results (the collaborator's drop-on-failure policy). -/
def Vm.applyAll (vm : Vm) (ps : List Bytes) : Vm :=
  ps.foldl (fun v p => (v.ApplyPatch p).2) vm

/-- One observation of the const method SerializeIncrementalState as a call:
the returned bytes paired with the receiver after the call, which the method,
being const, leaves untouched. -/
def Vm.serializeCall (vm : Vm) : Bytes × Vm :=
  (vm.SerializeIncrementalState, vm)

/-- The clone-then-keep-patching scenario: b is cloned from a, then a sequence
of patches is applied to a; returns (a after the patches, b). -/
def cloneScenario (a : Vm) (ps : List Bytes) : Vm × Vm :=
  (a.applyAll ps, a.CloneReadOnly)

/-- Top-level fields of a TracePacket as the protozero decoder sees them;
malformed bytes yield no fields. -/
def packetFields (blob : Bytes) : List WireField :=
  match parseFields blob with
  | some fs => fs
  | none => []

/-- Read a varint-typed top-level field of a TracePacket by field id, as the
protozero decoder accessors do; none when the field is absent. -/
def fieldVarint (blob : Bytes) (id : Nat) : Option Nat :=
  match (packetFields blob).find? (fun f => f.1 == id) with
  | some (_, 0, pl) =>
    match decodeVarint pl with
    | some (v, _) => some v
    | none => none
  | _ => none

/-- A varint-typed field read with the protozero zero default for an absent
field. -/
def fieldVarintD (blob : Bytes) (id : Nat) : Nat :=
  (fieldVarint blob id).getD 0

/-- TracePacket field ids of the envelope metadata: trusted_uid. -/
def trustedUidFieldId : Nat := 3

/-- TracePacket field ids of the envelope metadata: trusted_packet_sequence_id. -/
def trustedSeqFieldId : Nat := 10

/-- TracePacket field ids of the envelope metadata: trusted_pid. -/
def trustedPidFieldId : Nat := 79

/-- The pid_to_vm_ map of ProtoVmIncrementalTracing, as an association list. -/
abbrev PidMap := List (Nat × Vm)

/-- Replace the Vm stored under a pid (the in-place mutation of the Vm that
the map's pointer refers to). -/
def updatePidMap : PidMap → Nat → Vm → PidMap
  | [], _, _ => []
  | (k, v) :: rest, pid, vm =>
    if k = pid then (k, vm) :: rest else (k, v) :: updatePidMap rest pid vm

/-- ProtoVmIncrementalTracing::TryProcessPatch: decodes the packet, requires a
trusted_pid, looks up the Vm for that pid, calls ApplyPatch on the FULL packet
bytes, and on success re-serializes the incremental state and appends the
trusted_uid, trusted_pid and trusted_packet_sequence_id fields of the inbound
packet to it (in the order the code sets them). Returns the produced blob, if
any, and the map after the call. -/
def TryProcessPatch (m : PidMap) (blob : Bytes) : Option Bytes × PidMap :=
  match fieldVarint blob trustedPidFieldId with
  | none => (none, m)
  | some pid =>
    match m.find? (fun e => e.1 == pid) with
    | none => (none, m)
    | some e =>
      match e.2.ApplyPatch blob with
      | (Except.error _, vm2) => (none, updatePidMap m pid vm2)
      | (Except.ok _, vm2) =>
        let s := vm2.SerializeIncrementalState
        let out := s ++ serializeField (trustedUidFieldId, 0, encodeVarint (fieldVarintD blob trustedUidFieldId))
            ++ serializeField (trustedPidFieldId, 0, encodeVarint pid)
            ++ serializeField (trustedSeqFieldId, 0, encodeVarint (fieldVarintD blob trustedSeqFieldId))
        (some out, updatePidMap m pid vm2)

/-- The byte string that TryProcessPatch hands to Vm::ApplyPatch, when the
control flow reaches that call: the code passes the packet blob whole
(`ApplyPatch({blob.data(), blob.size()})`). -/
def appliedPatchBytes (m : PidMap) (blob : Bytes) : Option Bytes :=
  match fieldVarint blob trustedPidFieldId with
  | none => none
  | some pid =>
    match m.find? (fun e => e.1 == pid) with
    | none => none
    | some _ => some blob

/-- Modelled from the spec: "any outer envelope/routing metadata is stripped by
the collaborator before this call" — removal of the trusted_uid, trusted_pid
and trusted_packet_sequence_id top-level fields from the packet bytes,
re-serializing the remaining fields. Stated for comparison with the bytes the
code actually passes. -/
def stripTrustedFields (blob : Bytes) : Bytes :=
  match parseFields blob with
  | none => blob
  | some fs =>
    serializeFieldList (fs.filter (fun f =>
      !(f.1 == trustedUidFieldId || f.1 == trustedSeqFieldId || f.1 == trustedPidFieldId)))

/-- A const-call view of CloneReadOnly: the returned clone paired with the
receiver after the call, which the method, being const, leaves untouched. -/
def Vm.cloneCall (vm : Vm) : Vm × Vm :=
  (vm.CloneReadOnly, vm)

theorem applyPatch_of_frozen (vm : Vm) (p : Bytes) (h : vm.isFrozen = true) :
    vm.ApplyPatch p = (Except.error VmError.abort, vm) := by
  obtain ⟨op, st⟩ := vm
  cases st with
  | ro s => rfl
  | rw s => simp [Vm.isFrozen] at h

theorem applyAll_of_frozen (vm : Vm) (ps : List Bytes) (h : vm.isFrozen = true) :
    vm.applyAll ps = vm := by
  induction ps generalizing vm with
  | nil => rfl
  | cons p ps ih =>
    show Vm.applyAll ((vm.ApplyPatch p).2) ps = vm
    rw [applyPatch_of_frozen vm p h]
    exact ih vm h

theorem applyPatch_rw_error (op : Bytes) (s : ReadWriteState) (p : Bytes) (e : VmError)
    (h : vmRun s.program p s.tree s.memoryLimit = Except.error e) :
    Vm.ApplyPatch (Vm.mk op (VmState.rw s)) p = (Except.error e, Vm.mk op (VmState.rw s)) := by
  show (match vmRun s.program p s.tree s.memoryLimit with
    | Except.error e2 => (Except.error e2, Vm.mk op (VmState.rw s))
    | Except.ok t2 =>
      (Except.ok (), Vm.mk op (VmState.rw (ReadWriteState.mk s.program t2 s.memoryLimit)))) =
    (Except.error e, Vm.mk op (VmState.rw s))
  rw [h]

theorem applyPatch_rw_ok (op : Bytes) (s : ReadWriteState) (p : Bytes) (t2 : Tree)
    (h : vmRun s.program p s.tree s.memoryLimit = Except.ok t2) :
    Vm.ApplyPatch (Vm.mk op (VmState.rw s)) p =
      (Except.ok (), Vm.mk op (VmState.rw (ReadWriteState.mk s.program t2 s.memoryLimit))) := by
  show (match vmRun s.program p s.tree s.memoryLimit with
    | Except.error e2 => (Except.error e2, Vm.mk op (VmState.rw s))
    | Except.ok t3 =>
      (Except.ok (), Vm.mk op (VmState.rw (ReadWriteState.mk s.program t3 s.memoryLimit)))) =
    (Except.ok (), Vm.mk op (VmState.rw (ReadWriteState.mk s.program t2 s.memoryLimit)))
  rw [h]

/-- C1: for every Vm in the mutable-builder state and every patch byte string,
if ApplyPatch returns a failure result then the Vm — and hence
SerializeIncrementalState — is unchanged by the failed call: the tree is
observably unchanged on any rejected patch. -/
theorem claim_C1_rejected_patch_unchanged (vm : Vm) (p : Bytes) (e : VmError)
    (hmut : vm.isFrozen = false)
    (herr : (vm.ApplyPatch p).1 = Except.error e) :
    (vm.ApplyPatch p).2 = vm ∧
      ((vm.ApplyPatch p).2).SerializeIncrementalState = vm.SerializeIncrementalState := by
  obtain ⟨op, st⟩ := vm
  cases st with
  | ro s => simp [Vm.isFrozen] at hmut
  | rw s =>
    cases hR : vmRun s.program p s.tree s.memoryLimit with
    | error e2 => rw [applyPatch_rw_error op s p e2 hR]; exact ⟨rfl, rfl⟩
    | ok t2 =>
      rw [applyPatch_rw_ok op s p t2 hR] at herr
      simp at herr

/-- Witness for C1: a mutable-builder Vm and a truncated patch — ApplyPatch
fails with malformed input and the state is untouched. -/
theorem claim_C1_witness :
    (Vm.mkMutable [] 1000).isFrozen = false ∧
      ((Vm.mkMutable [] 1000).ApplyPatch [8]).1 = Except.error VmError.malformedInput ∧
      (((Vm.mkMutable [] 1000).ApplyPatch [8]).2 = Vm.mkMutable [] 1000 ∧
        (((Vm.mkMutable [] 1000).ApplyPatch [8]).2).SerializeIncrementalState =
          (Vm.mkMutable [] 1000).SerializeIncrementalState) :=
  ⟨rfl, rfl,
    claim_C1_rejected_patch_unchanged (Vm.mkMutable [] 1000) [8] VmError.malformedInput rfl rfl⟩

/-- C2: on a frozen-snapshot Vm every ApplyPatch call fails with the
unsupported-operation (abort) error — never a silent no-op, never a success —
and no sequence of ApplyPatch calls ever changes SerializeIncrementalState. -/
theorem claim_C2_frozen_applyPatch_always_fails (vm : Vm) (hfro : vm.isFrozen = true)
    (p : Bytes) (ps : List Bytes) :
    (vm.ApplyPatch p).1 = Except.error VmError.abort ∧
      (vm.applyAll ps).SerializeIncrementalState = vm.SerializeIncrementalState := by
  constructor
  · rw [applyPatch_of_frozen vm p hfro]
  · rw [applyAll_of_frozen vm ps hfro]

/-- Witness for C2: a concrete frozen-snapshot Vm, patch, and patch sequence. -/
theorem claim_C2_witness :
    (Vm.mkReadOnly [1, 2]).isFrozen = true ∧
      ((Vm.mkReadOnly [1, 2]).ApplyPatch [5]).1 = Except.error VmError.abort ∧
      ((Vm.mkReadOnly [1, 2]).applyAll [[3], [4]]).SerializeIncrementalState =
        (Vm.mkReadOnly [1, 2]).SerializeIncrementalState :=
  ⟨rfl, claim_C2_frozen_applyPatch_always_fails (Vm.mkReadOnly [1, 2]) rfl [5] [[3], [4]]⟩

/-- C3: two Vms freshly constructed in the mutable-builder state from the same
Program bytes and memory budget yield byte-identical SerializeIncrementalState
after the identical sequence of patches: ApplyPatch is deterministic in
(tree state, Program, patch bytes). -/
theorem claim_C3_determinism (p : Bytes) (n : Nat) (ps : List Bytes) (vm1 vm2 : Vm)
    (h1 : vm1 = Vm.mkMutable p n) (h2 : vm2 = Vm.mkMutable p n) :
    (vm1.applyAll ps).SerializeIncrementalState = (vm2.applyAll ps).SerializeIncrementalState := by
  subst h1
  subst h2
  rfl

/-- Witness for C3: two runs from the same concrete Program and budget over the
same patches. -/
theorem claim_C3_witness :
    Vm.mkMutable [1, 0] 100 = Vm.mkMutable [1, 0] 100 ∧
      ((Vm.mkMutable [1, 0] 100).applyAll [[8, 1]]).SerializeIncrementalState =
        ((Vm.mkMutable [1, 0] 100).applyAll [[8, 1]]).SerializeIncrementalState :=
  ⟨rfl, claim_C3_determinism [1, 0] 100 [[8, 1]] _ _ rfl rfl⟩

/-- C4: a patch whose application would grow the tree past the memory budget is
rejected with an explicit resource-exceeded failure and zero partial mutation;
the last valid state stays intact and re-applying the same growing patch keeps
failing. -/
theorem claim_C4_budget_enforcement (vm : Vm) (op prog : Bytes) (t : Tree) (n : Nat)
    (p : Bytes) (fs : List WireField) (t2 : Tree)
    (hvm : vm = Vm.mk op (VmState.rw (ReadWriteState.mk prog t n)))
    (hp : parseFields p = some fs)
    (ha : applyFields (decodeProgram prog) fs t = Except.ok t2)
    (hn : ¬ treeSize t2 ≤ n) :
    vm.ApplyPatch p = (Except.error VmError.resourceExceeded, vm) ∧
      ((vm.ApplyPatch p).2).SerializeIncrementalState = vm.SerializeIncrementalState ∧
      ((vm.ApplyPatch p).2).ApplyPatch p = (Except.error VmError.resourceExceeded, vm) := by
  subst hvm
  have h1 : vmRun prog p t n =
      match applyFields (decodeProgram prog) fs t with
      | Except.error e => Except.error e
      | Except.ok t3 =>
        if treeSize t3 ≤ n then Except.ok t3 else Except.error VmError.resourceExceeded := by
    unfold vmRun
    rw [hp]
  have hrun : vmRun prog p t n = Except.error VmError.resourceExceeded := by
    rw [h1, ha]
    show (if treeSize t2 ≤ n then Except.ok t2 else Except.error VmError.resourceExceeded) =
      Except.error VmError.resourceExceeded
    rw [if_neg hn]
  have key := applyPatch_rw_error op (ReadWriteState.mk prog t n) p VmError.resourceExceeded hrun
  refine ⟨key, by rw [key], by rw [key]; exact key⟩

/-- Witness for C4: budget 0, a Program addressing field 1 as a varint, and a
patch setting field 1 — the new tree would serialize to 2 bytes, over budget. -/
theorem claim_C4_witness :
    parseFields [8, 1] = some [(1, 0, [1])] ∧
      applyFields (decodeProgram [1, 0]) [(1, 0, [1])] [] = Except.ok [(1, 0, [1])] ∧
      ¬ treeSize [(1, 0, [1])] ≤ 0 ∧
      (Vm.mk [] (VmState.rw (ReadWriteState.mk [1, 0] [] 0))).ApplyPatch [8, 1] =
        (Except.error VmError.resourceExceeded,
          Vm.mk [] (VmState.rw (ReadWriteState.mk [1, 0] [] 0))) :=
  ⟨rfl, rfl, by decide,
    (claim_C4_budget_enforcement _ [] [1, 0] [] 0 [8, 1] [(1, 0, [1])] [(1, 0, [1])]
      rfl rfl rfl (by decide)).1⟩

/-- C5: after b is cloned from a, any sequence of subsequent ApplyPatch calls
on a leaves b's SerializeIncrementalState byte-identical to its value at clone
time, and b stays immutable thereafter (every ApplyPatch on b fails with the
abort error and leaves b unchanged). -/
theorem claim_C5_clone_independence (a : Vm) (ps : List Bytes) :
    ((cloneScenario a ps).2).SerializeIncrementalState = a.SerializeIncrementalState ∧
      ((cloneScenario a ps).2).isFrozen = true ∧
      ∀ p, (((cloneScenario a ps).2).ApplyPatch p).1 = Except.error VmError.abort ∧
        (((cloneScenario a ps).2).ApplyPatch p).2 = (cloneScenario a ps).2 :=
  ⟨rfl, rfl, fun _ => ⟨rfl, rfl⟩⟩

/-- C6: CloneReadOnly, valid in either state, returns a brand-new Vm in the
frozen-snapshot state whose serialized state is byte-identical to the source's
at the moment of the call, and leaves the source Vm itself unchanged. -/
theorem claim_C6_cloneReadOnly (vm : Vm) :
    (vm.cloneCall.1).isFrozen = true ∧
      (vm.cloneCall.1).SerializeIncrementalState = vm.SerializeIncrementalState ∧
      vm.cloneCall.2 = vm :=
  ⟨rfl, rfl, rfl⟩

/-- C7: two consecutive SerializeIncrementalState calls with no intervening
ApplyPatch are byte-identical; the frozen-snapshot state returns the stored
snapshot verbatim, and a fresh mutable-builder Vm serializes its (empty) live
tree deterministically, immediately after construction. -/
theorem claim_C7_idempotent_serialization (vm : Vm) (s p : Bytes) (n : Nat) :
    ((vm.serializeCall.2).serializeCall).1 = vm.serializeCall.1 ∧
      (Vm.mkReadOnly s).SerializeIncrementalState = s ∧
      (Vm.mkMutable p n).SerializeIncrementalState = treeSerialize [] :=
  ⟨rfl, rfl, rfl⟩

/-- Counterexample for C8: on a concrete frozen-snapshot Vm, which carries no
Program, SerializeProgram does not fail — it silently returns the empty byte
string (the code returns owned_program with no check of the active variant),
contradicting the claim that the operation must fail explicitly there. -/
theorem claim_C8_counterexample :
    (Vm.mkReadOnly [7]).isFrozen = true ∧ (Vm.mkReadOnly [7]).SerializeProgram = [] :=
  ⟨rfl, rfl⟩

/-- C8 amended: SerializeProgram returns owned_program unconditionally — the
original Program bytes on a mutable-builder Vm, and the empty byte string on a
frozen-snapshot Vm; it never fails. -/
theorem claim_C8_amended_serializeProgram (p : Bytes) (n : Nat) (s : Bytes) :
    (Vm.mkMutable p n).SerializeProgram = p ∧ (Vm.mkReadOnly s).SerializeProgram = [] :=
  ⟨rfl, rfl⟩

/-- Counterexample for C9: a concrete trace packet consisting solely of the
trusted_pid envelope field reaches the ApplyPatch call, and the bytes passed
are the whole packet — not the metadata-stripped payload, which here would be
empty. -/
theorem claim_C9_counterexample :
    appliedPatchBytes [(5, Vm.mkMutable [] 1000000)] [248, 4, 5] = some [248, 4, 5] ∧
      stripTrustedFields [248, 4, 5] = [] ∧
      appliedPatchBytes [(5, Vm.mkMutable [] 1000000)] [248, 4, 5] ≠
        some (stripTrustedFields [248, 4, 5]) := by
  refine ⟨rfl, rfl, ?_⟩
  decide

/-- C9 amended: TryProcessPatch passes the inbound packet bytes to ApplyPatch
whole — the trusted uid, trusted pid and packet sequence id fields are NOT
stripped from the input; whenever the control flow reaches the ApplyPatch call,
the bytes handed over are exactly the full packet bytes. -/
theorem claim_C9_amended_full_packet_bytes (m : PidMap) (blob : Bytes) (b : Bytes)
    (h : appliedPatchBytes m blob = some b) : b = blob := by
  unfold appliedPatchBytes at h
  cases hf : fieldVarint blob trustedPidFieldId with
  | none => rw [hf] at h; simp at h
  | some pid =>
    rw [hf] at h
    have h2 : (match List.find? (fun e => e.1 == pid) m with
        | none => none
        | some _ => some blob) = some b := h
    cases hm : List.find? (fun e => e.1 == pid) m with
    | none => rw [hm] at h2; simp at h2
    | some e =>
      rw [hm] at h2
      exact (Option.some.inj h2).symm

/-- Witness for the amended C9: the concrete packet of the counterexample does
reach ApplyPatch, and the bytes passed are the full packet. -/
theorem claim_C9_amended_witness :
    appliedPatchBytes [(5, Vm.mkMutable [] 1000000)] [248, 4, 5] = some [248, 4, 5] ∧
      ([248, 4, 5] : Bytes) = [248, 4, 5] :=
  ⟨rfl, claim_C9_amended_full_packet_bytes [(5, Vm.mkMutable [] 1000000)] [248, 4, 5]
    [248, 4, 5] rfl⟩

/-- C10: every Vm constructed in the frozen-snapshot state — directly from
serialized bytes or via CloneReadOnly — answers SerializeProgram with the empty
byte string and no failure, since owned_program is set only by the
mutable-builder constructor. -/
theorem claim_C10_frozen_serializeProgram_empty (s : Bytes) (a : Vm) :
    (Vm.mkReadOnly s).SerializeProgram = [] ∧ (a.CloneReadOnly).SerializeProgram = [] :=
  ⟨rfl, rfl⟩

end Protovm
